import Mathlib

/- Shallow embedding of the bangumi-sync cross-catalog reconciliation engine.

   Data model from `src/types/china_anime_data.ts`, `src/types/global_anime_data.ts`,
   `src/types/cache.ts` and `src/types/anime_collection.ts`; the entity matcher from
   `src/utils/data_util.ts`; the changelog generator from `src/utils/sync_util.ts`;
   the concurrency scheduler from `src/utils/scheduler.ts`.

   External collaborators (the string-similarity library, the bangumi remote client
   and the cache file write) are parameters of the embedded functions. -/

/-- Season of a global catalog entry (`GlobalAnimeData.Season`). -/
inductive Season
  | Fall | Spring | Summer | Undefined | Winter
deriving DecidableEq, Repr

/-- Media format of a global catalog entry (`GlobalAnimeData.Type`). -/
inductive GlobalAnimeType
  | Movie | Ona | Ova | Special | Tv | Unknown
deriving DecidableEq, Repr

/-- Media format of a china catalog entry (`ChinaAnimeData.Type`). -/
inductive ChinaAnimeType
  | Movie | Ova | Tv | Web
deriving DecidableEq, Repr

/-- One `(site, native id)` pair of a china catalog entry (`ChinaAnimeData.SiteElement`,
    restricted to the two fields the matcher reads). -/
structure SiteElement where
  site : String
  id : String
deriving DecidableEq, Repr

/-- A china catalog entry (`ChinaAnimeData.Item`). The `begin : Date` field is kept as
    the pair `(getFullYear, getMonth + 1)`, which is all `compareChinaWithGlobal` reads.
    `titleTranslate` keeps the value lists of the translation record, in
    `Object.entries` order. -/
structure ChinaAnimeItem where
  title : String
  titleTranslate : List (List String)
  type : ChinaAnimeType
  beginYear : Int
  beginMonth : Nat
  sites : List SiteElement
deriving DecidableEq, Repr

/-- A global catalog entry (`GlobalAnimeData.Item`), with the `sites` map restricted to
    the two keys the engine reads (`MyAnimeList`, `AniList`); an absent key is `none`. -/
structure GlobalAnimeItem where
  title : String
  synonyms : List String
  type : GlobalAnimeType
  episodes : Nat
  season : Season
  seasonYear : Option Int
  malSite : Option String
  anilistSite : Option String
deriving DecidableEq, Repr

/-- A persisted relation-cache entry (`Relation` in `src/types/cache.ts`). -/
structure Relation where
  title : String
  bgm_id : String
  mal_id : String
deriving DecidableEq, Repr

/-- JS string truthiness: a string is truthy iff it is nonempty. -/
def strTruthy (s : String) : Bool := s != ""

/-- JS truthiness of an optional string (`undefined` and `""` are falsy). -/
def optTruthy : Option String → Bool
  | none => false
  | some s => strTruthy s

/-- Collapse an optional string to `none` when it is falsy in JS
    (used for `x || null` and `if (!x) continue` patterns). -/
def optStr : Option String → Option String
  | none => none
  | some s => if s = "" then none else some s

/-- `getBgmId` (`data_util.ts`): the id of the first `"bangumi"`-tagged site of a china
    entry, with `"" || null` collapsing the empty id to `none`. -/
def getBgmId (cn : ChinaAnimeItem) : Option String :=
  match cn.sites.find? (fun s => s.site == "bangumi") with
  | some s => if s.id = "" then none else some s.id
  | none => none

/-- `getGlobalAnimeItemByMal` (`data_util.ts`): `mal_id_map` maps a MyAnimeList id to the
    list of global entries carrying it, in catalog order, skipping falsy ids at build
    time; the lookup returns the first entry of that list. -/
def getGlobalAnimeItemByMal (globals : List GlobalAnimeItem) (mal_id : String) :
    Option GlobalAnimeItem :=
  if mal_id = "" then none
  else globals.find? (fun g => g.malSite == some mal_id)

/-- `getGlobalAnimeItemByAnilist` (`data_util.ts`): linear scan of the global catalog for
    a matching `AniList` site id. -/
def getGlobalAnimeItemByAnilist (globals : List GlobalAnimeItem) (anilist_id : String) :
    Option GlobalAnimeItem :=
  globals.find? (fun g => g.anilistSite == some anilist_id)

/-- The candidate title set of a china entry: main title followed by every
    translated-title list entry (`matchChinaToGlobal`, `data_util.ts`). -/
def cnAllTitles (cn : ChinaAnimeItem) : List String :=
  cn.title :: cn.titleTranslate.flatten

/-- `compareChinaWithGlobal` (`data_util.ts` lines 307-377), the metadata compatibility
    check. `totalEp` stands for `(await bangumiClient.getSubjectById(getBgmId(china)))?.total_episodes`,
    the remote episode total of the china entry (`none` = subject not found / field absent).
    The strict-mode season branch and the final episode-fallback expression are translated
    literally, sequential early returns becoming nested else-ifs. -/
def compareChinaWithGlobal (totalEp : Option Nat) (china : ChinaAnimeItem)
    (gl : GlobalAnimeItem) (strictMode : Bool) (matchMonth : Bool := true)
    (matchFormat : Bool := true) : Bool :=
  if gl.seasonYear ≠ some china.beginYear then false
  else
    let month := china.beginMonth
    let seasonOk : Bool :=
      if matchMonth ∧ gl.season ≠ Season.Undefined then
        if strictMode then
          if gl.season ≠ Season.Winter ∧ month < 4 then false
          else if gl.season ≠ Season.Spring ∧ month < 7 then false
          else if gl.season ≠ Season.Summer ∧ month < 10 then false
          else if gl.season ≠ Season.Fall ∧ month < 13 then false
          else true
        else
          match month with
          | 1 | 2 => decide (gl.season = Season.Winter)
          | 3 => decide (gl.season = Season.Winter ∨ gl.season = Season.Spring)
          | 4 | 5 => decide (gl.season = Season.Spring)
          | 6 => decide (gl.season = Season.Spring ∨ gl.season = Season.Summer)
          | 7 | 8 => decide (gl.season = Season.Summer)
          | 9 => decide (gl.season = Season.Summer ∨ gl.season = Season.Fall)
          | 10 | 11 => decide (gl.season = Season.Fall)
          | 12 => decide (gl.season = Season.Fall ∨ gl.season = Season.Winter)
          | _ => false
      else true
    if seasonOk = false then false
    else
      let mismatch : Bool :=
        if matchFormat ∧ gl.type ≠ GlobalAnimeType.Unknown then
          match china.type with
          | ChinaAnimeType.Tv => decide (gl.type ≠ GlobalAnimeType.Tv)
          | ChinaAnimeType.Web => decide (gl.type ≠ GlobalAnimeType.Ona)
          | ChinaAnimeType.Ova =>
              decide (gl.type ≠ GlobalAnimeType.Ova ∧ gl.type ≠ GlobalAnimeType.Special)
          | ChinaAnimeType.Movie => decide (gl.type ≠ GlobalAnimeType.Movie)
        else false
      !(mismatch && (!strictMode && decide (totalEp ≠ some gl.episodes)))

/-- The running best fuzzy match (`bestMatch` in `matchChinaToGlobal`). -/
structure BestMatch where
  anime : Option GlobalAnimeItem
  score : ℚ
deriving DecidableEq, Repr

/-- One iteration of the fuzzy scan loop body of `matchChinaToGlobal`: score one china
    candidate title against one global entry's title set. `sim` is the external
    `stringSimilarity.findBestMatch(title, glTitles).bestMatch.rating` call; the third
    state component counts those calls. -/
def scanStep (sim : String → List String → ℚ) (threshold : ℚ) (gl : GlobalAnimeItem)
    (st : List (GlobalAnimeItem × ℚ) × BestMatch × Nat) (t : String) :
    List (GlobalAnimeItem × ℚ) × BestMatch × Nat :=
  let score := sim t (gl.title :: gl.synonyms)
  let fuzzy := if threshold ≤ score then st.1 ++ [(gl, score)] else st.1
  let best := if st.2.1.score < score then BestMatch.mk (some gl) score else st.2.1
  (fuzzy, best, st.2.2 + 1)

/-- The fuzzy scan of `matchChinaToGlobal`: every global entry against every candidate
    title, accumulating at-or-above-threshold pairs, the single global best, and the
    number of similarity calls. -/
def scanGlobals (sim : String → List String → ℚ) (threshold : ℚ) (cnTitles : List String)
    (globals : List GlobalAnimeItem) : List (GlobalAnimeItem × ℚ) × BestMatch × Nat :=
  globals.foldl (fun st gl => cnTitles.foldl (scanStep sim threshold gl) st)
    ([], BestMatch.mk none 0, 0)

/-- Insertion step of the descending-score sort (`fuzzyMatch.sort((a, b) => b.score - a.score)`). -/
def insertDesc (p : GlobalAnimeItem × ℚ) :
    List (GlobalAnimeItem × ℚ) → List (GlobalAnimeItem × ℚ)
  | [] => [p]
  | q :: qs => if q.2 < p.2 then p :: q :: qs else q :: insertDesc p qs

/-- Descending-score sort of the fuzzy-match list. -/
def sortDesc : List (GlobalAnimeItem × ℚ) → List (GlobalAnimeItem × ℚ)
  | [] => []
  | p :: ps => insertDesc p (sortDesc ps)

deriving instance DecidableEq for Except

/-- Outcome of one `matchChinaToGlobal` invocation over explicit state.
    `result` is `.error ()` when the cache persist threw (the exception escaping the
    matcher); `relations` is the final `known_relations` list; `fuzzyCalls` counts
    string-similarity invocations; `persistAttempts` counts cache-file writes. -/
structure MatchOutcome where
  result : Except Unit (Option GlobalAnimeItem)
  relations : List Relation
  fuzzyCalls : Nat
  persistAttempts : Nat
deriving DecidableEq, Repr

/-- The candidate walk of `matchChinaToGlobal` (lines 195-216): first compatible
    candidate with a truthy MyAnimeList id is pushed onto `known_relations`, the list is
    persisted (`fs.writeFileSync`, modelled by `persist`; a `false` outcome is a throw,
    which escapes the matcher), and the candidate is returned. -/
def tryCandidates (cmp : GlobalAnimeItem → Bool) (persist : List Relation → Bool)
    (bgm_id title : String) (rels : List Relation) :
    List (GlobalAnimeItem × ℚ) → Except Unit (Option GlobalAnimeItem) × List Relation × Nat
  | [] => (Except.ok none, rels, 0)
  | (gl, _) :: rest =>
    if cmp gl then
      match optStr gl.malSite with
      | none => tryCandidates cmp persist bgm_id title rels rest
      | some mal_id =>
        let rels2 := rels ++ [Relation.mk title bgm_id mal_id]
        if persist rels2 then (Except.ok (some gl), rels2, 1)
        else (Except.error (), rels2, 1)
    else tryCandidates cmp persist bgm_id title rels rest

/-- The cache-miss path of `matchChinaToGlobal` (`data_util.ts` lines 167-219) over
    explicit state: fuzzy scan, strict-mode fallback to the single best match when no
    candidate reaches the threshold, then the metadata walk over the candidates.
    `sim` is the string-similarity library, `totalEp` the remote episode lookup used by
    the compatibility check, `persist` the cache-file write. -/
def matchFuzzy (globals : List GlobalAnimeItem) (sim : String → List String → ℚ)
    (totalEp : ChinaAnimeItem → Option Nat) (persist : List Relation → Bool)
    (rels : List Relation) (cn : ChinaAnimeItem) (titleSimilarityThreshold : ℚ)
    (bgm_id : String) : MatchOutcome :=
  let scan := scanGlobals sim titleSimilarityThreshold (cnAllTitles cn) globals
  let sorted := sortDesc scan.1
  let calls := scan.2.2
  let cs : List (GlobalAnimeItem × ℚ) × Bool :=
    match sorted, scan.2.1.anime with
    | [], some a => ([(a, scan.2.1.score)], true)
    | [], none => ([], false)
    | s, _ => (s, false)
  let cmp := fun gl => compareChinaWithGlobal (totalEp cn) cn gl cs.2
  let walk := tryCandidates cmp persist bgm_id cn.title rels cs.1
  MatchOutcome.mk walk.1 walk.2.1 calls walk.2.2

/-- `matchChinaToGlobal` assembled: relation cache first (no fuzzy work, no append on a
    hit), otherwise the fuzzy path. -/
def matchChinaToGlobal (globals : List GlobalAnimeItem) (sim : String → List String → ℚ)
    (totalEp : ChinaAnimeItem → Option Nat) (persist : List Relation → Bool)
    (rels : List Relation) (cn : ChinaAnimeItem)
    (titleSimilarityThreshold : ℚ := 3 / 4) : MatchOutcome :=
  match getBgmId cn with
  | none => MatchOutcome.mk (Except.ok none) rels 0 0
  | some bgm_id =>
    match optStr ((rels.find? (fun r => r.bgm_id == bgm_id)).map Relation.mal_id) with
    | some mal_id =>
        MatchOutcome.mk (Except.ok (getGlobalAnimeItemByMal globals mal_id)) rels 0 0
    | none => matchFuzzy globals sim totalEp persist rels cn titleSimilarityThreshold bgm_id

/-- Watch status of a collection entry (`CollectionStatus` in `anime_collection.ts`). -/
inductive CollectionStatus
  | Watching | Completed | OnHold | Dropped | PlanToWatch
deriving DecidableEq, Repr

/-- A watch-state collection entry (`AnimeCollection` in `anime_collection.ts`).
    `update_time` is the epoch value of the `Date`. -/
structure AnimeCollection where
  mal_id : Option String := none
  bgm_id : Option String := none
  anilist_id : Option String := none
  title : Option String := none
  status : CollectionStatus
  watched_episodes : Nat
  score : ℚ
  comments : Option String := none
  update_time : Int := 0
deriving DecidableEq, Repr

/-- One changelog instruction (`{before?, after}` in `sync_util.ts`). -/
structure ChangeInstruction where
  before : Option AnimeCollection := none
  after : AnimeCollection
deriving DecidableEq, Repr

/-- The episode total `generateChangelog` fetches for a source entry
    (`item?.episodes || 0`, by MyAnimeList id when truthy, else by AniList id). -/
def globalEpisodeCount (globals : List GlobalAnimeItem) (b : AnimeCollection) : Nat :=
  if optTruthy b.mal_id then
    match getGlobalAnimeItemByMal globals (b.mal_id.getD "") with
    | some g => g.episodes
    | none => 0
  else
    match getGlobalAnimeItemByAnilist globals (b.anilist_id.getD "") with
    | some g => g.episodes
    | none => 0

/-- The episode-count clamp of `generateChangelog` (`sync_util.ts` lines 486-495):
    a completed entry, or one whose progress exceeds the catalog total, gets its
    watched-episode count overwritten with that total. -/
def fixWatched (globals : List GlobalAnimeItem) (b : AnimeCollection) : AnimeCollection :=
  let total := globalEpisodeCount globals b
  if b.status = CollectionStatus.Completed ∨ total < b.watched_episodes then
    { b with watched_episodes := total }
  else b

/-- The target-collection lookup predicate of `generateChangelog`: by AniList id when
    the source entry's AniList id is truthy, else by MyAnimeList id. -/
def anilistPred (b : AnimeCollection) (col : AnimeCollection) : Bool :=
  if optTruthy b.anilist_id then col.anilist_id == b.anilist_id
  else col.mal_id == b.mal_id

/-- The id/title back-fill of `generateChangelog` (lines 512-519): the source entry
    copies the target's cross-catalog ids, the target copies the source's native id, and
    a falsy title on either side is copied from the other (target first). Returns the
    mutated `(source, target)` pair. -/
def syncEntries (b a : AnimeCollection) : AnimeCollection × AnimeCollection :=
  let b1 := { b with mal_id := a.mal_id, anilist_id := a.anilist_id }
  let a1 := { a with bgm_id := b.bgm_id }
  let a2 := if optTruthy a1.title then a1 else { a1 with title := b1.title }
  let b2 := if optTruthy b1.title then b1 else { b1 with title := a2.title }
  (b2, a2)

/-- Replace the first element satisfying `p` (in-place mutation of the object
    `Array.prototype.find` returned, seen from the containing list). -/
def replaceFirst (p : AnimeCollection → Bool) (a2 : AnimeCollection) :
    List AnimeCollection → List AnimeCollection
  | [] => []
  | x :: xs => if p x then a2 :: xs else x :: replaceFirst p a2 xs

/-- One `for (let bangumi of bangumiCollection)` iteration of `generateChangelog`
    (`sync_util.ts` lines 483-535): skip id-less entries, clamp the episode count, find
    the target entry, back-fill ids/titles, emit an instruction on a status/score/progress
    difference and (when `syncComment`) another on a comment difference. Returns the
    emitted instructions and the updated target collection. -/
def genEntry (globals : List GlobalAnimeItem) (syncComment : Bool)
    (aCol : List AnimeCollection) (b : AnimeCollection) :
    List ChangeInstruction × List AnimeCollection :=
  if ¬ optTruthy b.mal_id ∧ ¬ optTruthy b.anilist_id then ([], aCol)
  else
    let b1 := fixWatched globals b
    match aCol.find? (anilistPred b1) with
    | none => ([ChangeInstruction.mk none b1], aCol)
    | some a =>
      let s := syncEntries b1 a
      let base :=
        if s.1.score ≠ s.2.score ∨ s.1.status ≠ s.2.status ∨
            s.1.watched_episodes ≠ s.2.watched_episodes then
          [ChangeInstruction.mk (some s.2) s.1]
        else []
      let extra :=
        if syncComment ∧ s.2.comments ≠ s.1.comments then
          [ChangeInstruction.mk (some s.2) s.1]
        else []
      (base ++ extra, replaceFirst (anilistPred b1) s.2 aCol)

/-- `generateChangelog` (`sync_util.ts` lines 480-538): fold `genEntry` over the source
    collection, threading the (mutated-in-place) target collection. -/
def generateChangelog (globals : List GlobalAnimeItem) (syncComment : Bool) :
    List AnimeCollection → List AnimeCollection → List ChangeInstruction
  | [], _ => []
  | b :: rest, aCol =>
    let step := genEntry globals syncComment aCol b
    step.1 ++ generateChangelog globals syncComment rest step.2

/-- State of a `Scheduler` (`src/utils/scheduler.ts`): the pending task queue, the ids of
    tasks whose promise is pending and accounted in the `running` counter (the counter's
    value is `running.length`), and the ids of tasks whose promise has settled. -/
structure SchedState where
  queue : List Nat
  running : List Nat
  settled : List Nat
deriving DecidableEq, Repr

/-- The state a `Scheduler` is constructed in. -/
def SchedInit : SchedState := SchedState.mk [] [] []

/-- `Scheduler.next`: dequeue the front task, if any, and run it (`running++`). -/
def schedNext (s : SchedState) : SchedState :=
  match s.queue with
  | [] => s
  | j :: rest => SchedState.mk rest (j :: s.running) s.settled

/-- `Scheduler.push(task)`: enqueue, then start a task if `running < limit`. -/
def pushJob (limit : Nat) (s : SchedState) (j : Nat) : SchedState :=
  let s1 := { s with queue := s.queue ++ [j] }
  if s1.running.length < limit then schedNext s1 else s1

/-- Settlement of a running task's promise.  `Scheduler.run` installs only a fulfillment
    handler (`task().then(() => { this.running--; this.next(); })`, no rejection handler),
    so a fulfilled task decrements the counter and starts the next task, while a rejected
    task (`outcome j = false`) leaves the counter and the queue untouched. -/
def settleJob (outcome : Nat → Bool) (s : SchedState) (j : Nat) : SchedState :=
  if outcome j then schedNext (SchedState.mk s.queue (s.running.erase j) (j :: s.settled))
  else { s with settled := j :: s.settled }

/-- Event semantics of the scheduler: a client may push a fresh task at any time, and any
    running, not-yet-settled task may settle (fulfilling or rejecting per `outcome`). -/
inductive SchedStep (limit : Nat) (outcome : Nat → Bool) : SchedState → SchedState → Prop
  | push (s : SchedState) (j : Nat) (hq : j ∉ s.queue) (hr : j ∉ s.running)
      (hs : j ∉ s.settled) : SchedStep limit outcome s (pushJob limit s j)
  | settle (s : SchedState) (j : Nat) (hr : j ∈ s.running) (hs : j ∉ s.settled) :
      SchedStep limit outcome s (settleJob outcome s j)

/-- An `outcome` function under which every task's promise rejects. -/
def rejectAll : Nat → Bool := fun _ => false

/-- The scheduler state after `new Scheduler(1); push(job 1); push(job 2)` and the
    rejection of job 1's promise. -/
def SchedStuck : SchedState := settleJob rejectAll (pushJob 1 (pushJob 1 SchedInit 1) 2) 1

/-- Which platform receives a bidirectional instruction's write. -/
inductive SyncTarget
  | anilist | bangumi
deriving DecidableEq, Repr

/-- A direction-tagged changelog instruction (`{before?, after, to}` consumed by
    `main.ts` in `--both` mode). -/
structure BiInstruction where
  before : Option AnimeCollection := none
  after : AnimeCollection
  target : SyncTarget
deriving DecidableEq, Repr

/-- Two instructions concern the same title when their source entries carry the same
    cross-catalog (MyAnimeList) id. -/
def sameTitleKey (x y : ChangeInstruction) : Bool := x.after.mal_id == y.after.mal_id

/-- Modelled from the spec: the per-title merge rule of bidirectional mode for a
    forward-direction instruction. `generateBidirectionalChangelog` is imported by
    `main.ts` from `sync_util` but its definition is absent from the sources; spec §4.4
    step 6 prescribes keeping, per title present in both directions, the instruction
    whose source entry has the later last-update timestamp.  The spec leaves the equal-
    timestamp tie unresolved; this model keeps the forward direction on a tie. -/
def keepForward (bwd : List ChangeInstruction) (f : ChangeInstruction) :
    Option BiInstruction :=
  match bwd.find? (sameTitleKey f) with
  | none => some (BiInstruction.mk f.before f.after SyncTarget.anilist)
  | some g =>
    if f.after.update_time < g.after.update_time then none
    else some (BiInstruction.mk f.before f.after SyncTarget.anilist)

/-- Modelled from the spec: the per-title merge rule of bidirectional mode for a
    backward-direction instruction (kept exactly when its source entry's timestamp is
    strictly later than the forward counterpart's, or when no counterpart exists). -/
def keepBackward (fwd : List ChangeInstruction) (g : ChangeInstruction) :
    Option BiInstruction :=
  match fwd.find? (sameTitleKey g) with
  | none => some (BiInstruction.mk g.before g.after SyncTarget.bangumi)
  | some f =>
    if f.after.update_time < g.after.update_time then
      some (BiInstruction.mk g.before g.after SyncTarget.bangumi)
    else none

/-- Modelled from the spec: `generateBidirectionalChangelog` (named among `main.ts`'s
    imports, definition missing from `src/`). Per spec §4.4 step 6, the changelog is
    generated symmetrically in both directions; for each title present in both outputs
    only the instruction with the later source-entry timestamp is kept, tagged with its
    write-target platform; a title present in one output keeps that instruction. -/
def generateBidirectionalChangelog (globals : List GlobalAnimeItem) (syncComment : Bool)
    (bCol aCol : List AnimeCollection) : List BiInstruction :=
  let fwd := generateChangelog globals syncComment bCol aCol
  let bwd := generateChangelog globals syncComment aCol bCol
  fwd.filterMap (keepForward bwd) ++ bwd.filterMap (keepBackward fwd)

/-- A china entry beginning 2021-01 (January, canonical quarter winter), format tv,
    bangumi id `"b1"`. -/
def cnJan : ChinaAnimeItem :=
  ChinaAnimeItem.mk "A" [] ChinaAnimeType.Tv 2021 1 [SiteElement.mk "bangumi" "b1"]

/-- A china entry beginning 2021-04 (April, canonical quarter spring). -/
def cnApr : ChinaAnimeItem := { cnJan with beginMonth := 4 }

/-- A china entry beginning 2021-07 (July, canonical quarter summer). -/
def cnJul : ChinaAnimeItem := { cnJan with beginMonth := 7 }

/-- A china entry beginning 2021-09 (September, boundary month of fall). -/
def cnSep : ChinaAnimeItem := { cnJan with beginMonth := 9 }

/-- A china entry beginning 2021-10 (October, canonical quarter fall). -/
def cnOct : ChinaAnimeItem := { cnJan with beginMonth := 10 }

/-- A global tv entry of winter 2021 with MyAnimeList id `"m1"`. -/
def glWinter : GlobalAnimeItem :=
  GlobalAnimeItem.mk "A" [] GlobalAnimeType.Tv 12 Season.Winter (some 2021) (some "m1") none

/-- A global tv entry of spring 2021. -/
def glSpring : GlobalAnimeItem := { glWinter with season := Season.Spring }

/-- A global tv entry of summer 2021. -/
def glSummer : GlobalAnimeItem := { glWinter with season := Season.Summer }

/-- A global tv entry of fall 2021. -/
def glFall : GlobalAnimeItem := { glWinter with season := Season.Fall }

/-- A global movie entry of 2021 with undefined season and 1 episode. -/
def glMovieU : GlobalAnimeItem :=
  GlobalAnimeItem.mk "A" [] GlobalAnimeType.Movie 1 Season.Undefined (some 2021) (some "m1") none

/-- A global ona entry of 2021 with undefined season. -/
def glOnaU : GlobalAnimeItem := { glMovieU with type := GlobalAnimeType.Ona, episodes := 12 }

/-- A china web (streaming) entry beginning 2021-01. -/
def cnWeb : ChinaAnimeItem := { cnJan with type := ChinaAnimeType.Web }

/-- A global tv entry matching `cnJan` on every metadata axis. -/
def glA : GlobalAnimeItem := glWinter

/-- A global entry with MyAnimeList id `"1"` and 12 episodes (known total). -/
def g12 : GlobalAnimeItem :=
  GlobalAnimeItem.mk "G" [] GlobalAnimeType.Tv 12 Season.Winter (some 2021) (some "1") none

/-- A completed source entry with progress 5 whose catalog total is 12. -/
def bX : AnimeCollection :=
  { mal_id := some "1", bgm_id := some "b1", status := CollectionStatus.Completed,
    watched_episodes := 5, score := 7 }

/-- A target entry identical to `bX` in status, score, progress and comments. -/
def aX : AnimeCollection :=
  { mal_id := some "1", anilist_id := some "9", status := CollectionStatus.Completed,
    watched_episodes := 5, score := 7 }

/-- `bX` with its progress already clamped to the catalog total 12. -/
def bN : AnimeCollection := { bX with watched_episodes := 12 }

/-- `aX` with progress 12, identical to `bN` in the four compared fields. -/
def aN : AnimeCollection := { aX with watched_episodes := 12 }

/-- A completed source entry with progress 999 and catalog total 12. -/
def b999 : AnimeCollection :=
  { mal_id := some "1", bgm_id := some "b1", status := CollectionStatus.Completed,
    watched_episodes := 999, score := 0 }

/-- A source entry last updated at time 5, score 7. -/
def bW : AnimeCollection :=
  { mal_id := some "1", bgm_id := some "b1", anilist_id := some "9",
    status := CollectionStatus.Watching, watched_episodes := 0, score := 7, update_time := 5 }

/-- The counterpart entry of `bW`, last updated at time 10, score 8. -/
def aW : AnimeCollection :=
  { mal_id := some "1", anilist_id := some "9", status := CollectionStatus.Watching,
    watched_episodes := 0, score := 8, update_time := 10 }

/-- The instruction the forward (`bW` to `aW`) direction emits. -/
def fW : ChangeInstruction :=
  ChangeInstruction.mk (some { aW with bgm_id := some "b1" }) { bW with bgm_id := some "b1" }

/-- The instruction the backward (`aW` to `bW`) direction emits. -/
def gW : ChangeInstruction := ChangeInstruction.mk (some { bW with bgm_id := none }) aW

/-- Equality of the four compared watch-state fields (status, score, progress, comments). -/
def eq4 (x c : AnimeCollection) : Prop :=
  x.status = c.status ∧ x.score = c.score ∧
    x.watched_episodes = c.watched_episodes ∧ x.comments = c.comments

instance (x c : AnimeCollection) : Decidable (eq4 x c) := by
  unfold eq4
  infer_instance

/-- C1: the claim states that in strict mode the season check accepts exactly the
    canonical quarter of the source's start month. On the code this fails: the strict
    branch of `compareChinaWithGlobal` chains four non-exclusive early returns, so a
    January/winter, April/spring or July/summer pairing — month in its canonical
    quarter — is rejected in strict mode (only October-December against fall can pass),
    while the same pairings are accepted by the non-strict table. The last two conjuncts
    confirm the claim's second half: a boundary month one off the target quarter
    (September/fall) is tolerated non-strictly and rejected strictly. -/
theorem c1_strict_season_rejects_canonical_quarter :
    compareChinaWithGlobal none cnJan glWinter false = true ∧
    compareChinaWithGlobal none cnJan glWinter true = false ∧
    compareChinaWithGlobal none cnApr glSpring false = true ∧
    compareChinaWithGlobal none cnApr glSpring true = false ∧
    compareChinaWithGlobal none cnJul glSummer false = true ∧
    compareChinaWithGlobal none cnJul glSummer true = false ∧
    compareChinaWithGlobal none cnOct glFall true = true ∧
    compareChinaWithGlobal none cnSep glFall false = true ∧
    compareChinaWithGlobal none cnSep glFall true = false := by
  decide

/-- C2: the claim states that a strict-mode format mismatch makes the pair incompatible
    regardless of episode counts. On the code this fails: the final expression of
    `compareChinaWithGlobal`, `!(mismatch && (!strictMode && totalEp !== episodes))`,
    collapses to `true` whenever `strictMode` holds, so a strict-mode tv-vs-movie
    mismatch is accepted (first conjunct). The remaining conjuncts confirm the rest of
    the claim on the code: in non-strict mode the mismatch is fatal exactly when the
    episode counts differ, tv-tv and web-ona pairs are compatible, and an unknown target
    format skips the check. -/
theorem c2_strict_format_mismatch_accepted :
    compareChinaWithGlobal none cnJan glMovieU true = true ∧
    compareChinaWithGlobal none cnJan glMovieU false = false ∧
    compareChinaWithGlobal (some 1) cnJan glMovieU false = true ∧
    compareChinaWithGlobal none cnJan { glMovieU with type := GlobalAnimeType.Tv } false = true ∧
    compareChinaWithGlobal none cnWeb glOnaU false = true ∧
    compareChinaWithGlobal none cnJan { glMovieU with type := GlobalAnimeType.Unknown } false = true := by
  decide

/-- Starting a queued task adds at most one entry to the running set. -/
theorem schedNext_running_length (s : SchedState) :
    (schedNext s).running.length ≤ s.running.length + 1 := by
  cases h : s.queue <;> simp [schedNext, h]

/-- One scheduler event preserves the concurrency bound. -/
theorem schedStep_length_le (limit : Nat) (outcome : Nat → Bool) {a b : SchedState}
    (h : SchedStep limit outcome a b) (ih : a.running.length ≤ limit) :
    b.running.length ≤ limit := by
  cases h with
  | push j hq hr hs =>
    by_cases hlt : ({ a with queue := a.queue ++ [j] } : SchedState).running.length < limit
    · calc (pushJob limit a j).running.length
          ≤ ({ a with queue := a.queue ++ [j] } : SchedState).running.length + 1 := by
            simp only [pushJob, if_pos hlt]
            exact schedNext_running_length _
        _ ≤ limit := hlt
    · simp only [pushJob, if_neg hlt]
      exact ih
  | settle j hr hs =>
    by_cases ho : outcome j
    · have hlen : (a.running.erase j).length = a.running.length - 1 :=
        List.length_erase_of_mem hr
      have hpos : 1 ≤ a.running.length := List.length_pos.mpr (List.ne_nil_of_mem hr)
      calc (settleJob outcome a j).running.length
          ≤ (a.running.erase j).length + 1 := by
            simp only [settleJob, if_pos ho]
            exact schedNext_running_length _
        _ = a.running.length := by omega
        _ ≤ limit := ih
    · simp only [settleJob, if_neg ho]
      exact ih

/-- C4: for every sequence of push and settlement events on a scheduler with a given
    `limit`, the `running` counter never exceeds `limit`: `push` starts a task only
    below the limit, and a fulfilled task replaces itself with at most one queued task. -/
theorem c4_running_never_exceeds_limit (limit : Nat) (outcome : Nat → Bool)
    (s : SchedState)
    (h : Relation.ReflTransGen (SchedStep limit outcome) SchedInit s) :
    s.running.length ≤ limit := by
  induction h with
  | refl => simp [SchedInit]
  | tail hab hbc ih => exact schedStep_length_le limit outcome hbc ih

/-- Witness: a single push on a width-2 scheduler reaches a state with at most 2
    running tasks. -/
theorem c4_running_never_exceeds_limit_witness :
    (pushJob 2 SchedInit 0).running.length ≤ 2 :=
  c4_running_never_exceeds_limit 2 (fun _ => true) (pushJob 2 SchedInit 0)
    (Relation.ReflTransGen.single
      (SchedStep.push SchedInit 0 (by simp [SchedInit]) (by simp [SchedInit])
        (by simp [SchedInit])))

/-- C3: the claim states that a rejected job never prevents queued jobs from running and
    never keeps `wait()` from returning. On the code this fails: `Scheduler.run`
    decrements `running` and dequeues the next task only in the promise's fulfillment
    handler. The failing input is a width-1 scheduler given job 1 (whose promise
    rejects) and job 2: the rejection state `SchedStuck` is reachable, and in every
    state reachable from it job 2 is still queued, never running, and the `running`
    counter never returns to zero — `wait()`'s `while (this.running)` loop spins
    forever. -/
theorem c3_rejected_job_stalls_scheduler :
    Relation.ReflTransGen (SchedStep 1 rejectAll) SchedInit SchedStuck ∧
    ∀ s, Relation.ReflTransGen (SchedStep 1 rejectAll) SchedStuck s →
      2 ∈ s.queue ∧ 2 ∉ s.running ∧ s.running ≠ [] := by
  constructor
  · have h1 : SchedStep 1 rejectAll SchedInit (pushJob 1 SchedInit 1) :=
      SchedStep.push SchedInit 1 (by decide) (by decide) (by decide)
    have h2 : SchedStep 1 rejectAll (pushJob 1 SchedInit 1)
        (pushJob 1 (pushJob 1 SchedInit 1) 2) :=
      SchedStep.push (pushJob 1 SchedInit 1) 2 (by decide) (by decide) (by decide)
    have h3 : SchedStep 1 rejectAll (pushJob 1 (pushJob 1 SchedInit 1) 2) SchedStuck :=
      SchedStep.settle (pushJob 1 (pushJob 1 SchedInit 1) 2) 1 (by decide) (by decide)
    exact Relation.ReflTransGen.tail (Relation.ReflTransGen.tail
      (Relation.ReflTransGen.single h1) h2) h3
  · have step : ∀ a b : SchedState, SchedStep 1 rejectAll a b →
        a.running = [1] ∧ 1 ∈ a.settled ∧ 2 ∈ a.queue →
        b.running = [1] ∧ 1 ∈ b.settled ∧ 2 ∈ b.queue := by
      intro a b hab ih
      obtain ⟨hrun, hset, hqueue⟩ := ih
      cases hab with
      | push j hq hr hs =>
        have hnot : ¬ ({ a with queue := a.queue ++ [j] } : SchedState).running.length < 1 := by
          simp [hrun]
        refine ⟨?_, ?_, ?_⟩ <;> simp [pushJob, if_neg hnot, hrun, hset, hqueue]
      | settle j hr hs =>
        exact absurd (by rw [hrun, List.mem_singleton] at hr; rw [hr]; exact hset) hs
    have inv : ∀ s, Relation.ReflTransGen (SchedStep 1 rejectAll) SchedStuck s →
        s.running = [1] ∧ 1 ∈ s.settled ∧ 2 ∈ s.queue := by
      intro s h
      induction h with
      | refl => decide
      | tail hab hbc ih => exact step _ _ hbc ih
    intro s h
    obtain ⟨hrun, _, hqueue⟩ := inv s h
    refine ⟨hqueue, ?_, ?_⟩ <;> simp [hrun]

/-- Witness: the stalled state itself — job 2 queued forever, the running counter stuck
    at one. -/
theorem c3_rejected_job_stalls_scheduler_witness :
    2 ∈ SchedStuck.queue ∧ 2 ∉ SchedStuck.running ∧ SchedStuck.running ≠ [] :=
  c3_rejected_job_stalls_scheduler.2 SchedStuck Relation.ReflTransGen.refl

/-- The id/title back-fill leaves the source entry's compared fields untouched. -/
theorem syncEntries_fst_fields (b a : AnimeCollection) :
    (syncEntries b a).1.status = b.status ∧ (syncEntries b a).1.score = b.score ∧
    (syncEntries b a).1.watched_episodes = b.watched_episodes ∧
    (syncEntries b a).1.comments = b.comments := by
  simp only [syncEntries]
  split <;> simp

/-- The id/title back-fill leaves the target entry's cross-catalog ids and compared
    fields untouched. -/
theorem syncEntries_snd_fields (b a : AnimeCollection) :
    (syncEntries b a).2.mal_id = a.mal_id ∧ (syncEntries b a).2.anilist_id = a.anilist_id ∧
    (syncEntries b a).2.status = a.status ∧ (syncEntries b a).2.score = a.score ∧
    (syncEntries b a).2.watched_episodes = a.watched_episodes ∧
    (syncEntries b a).2.comments = a.comments := by
  simp only [syncEntries]
  split <;> simp

/-- Every instruction one source entry contributes carries the clamped episode count:
    once `fixWatched` rewrites the progress to the catalog total `n`, neither the id
    back-fill nor either emission site changes it. -/
theorem genEntry_watched_eq (globals : List GlobalAnimeItem) (syncComment : Bool)
    (aCol : List AnimeCollection) (b : AnimeCollection) (n : Nat)
    (hopt : optTruthy b.mal_id = true)
    (hcount : globalEpisodeCount globals b = n)
    (hcond : b.status = CollectionStatus.Completed ∨ n < b.watched_episodes) :
    (fixWatched globals b).watched_episodes = n ∧
    ∀ instr ∈ (genEntry globals syncComment aCol b).1,
      instr.after.watched_episodes = n := by
  have hfix : fixWatched globals b = { b with watched_episodes := n } := by
    simp only [fixWatched]
    rw [hcount, if_pos hcond]
  refine ⟨by rw [hfix], ?_⟩
  intro instr hin
  simp only [genEntry] at hin
  rw [if_neg (by simp [hopt])] at hin
  rw [hfix] at hin
  cases hfind : aCol.find? (anilistPred { b with watched_episodes := n }) with
  | none =>
    rw [hfind] at hin
    simp only [List.mem_singleton] at hin
    rw [hin]
  | some a =>
    rw [hfind] at hin
    have hw : (syncEntries { b with watched_episodes := n } a).1.watched_episodes = n :=
      (syncEntries_fst_fields { b with watched_episodes := n } a).2.2.1
    rcases List.mem_append.mp hin with h | h <;> split at h <;>
      first
        | exact absurd h (List.not_mem_nil _)
        | (simp only [List.mem_singleton] at h; rw [h]; exact hw)

/-- C6: a source entry carrying a cross-catalog id whose status is completed, or whose
    progress exceeds the target catalog's known total for that title, yields after-
    entries whose progress equals that known total; the accompanying equation places the
    per-entry instructions inside the `generateChangelog` output. -/
theorem c6_completed_progress_clamped (globals : List GlobalAnimeItem)
    (syncComment : Bool) (aCol : List AnimeCollection) (b : AnimeCollection)
    (m : String) (g : GlobalAnimeItem)
    (h1 : b.mal_id = some m) (h2 : m ≠ "")
    (h3 : getGlobalAnimeItemByMal globals m = some g)
    (h4 : b.status = CollectionStatus.Completed ∨ g.episodes < b.watched_episodes) :
    (∀ instr ∈ (genEntry globals syncComment aCol b).1,
      instr.after.watched_episodes = g.episodes) ∧
    ∀ rest, generateChangelog globals syncComment (b :: rest) aCol =
      (genEntry globals syncComment aCol b).1 ++
        generateChangelog globals syncComment rest (genEntry globals syncComment aCol b).2 := by
  have hopt : optTruthy b.mal_id = true := by
    rw [h1]; simp [optTruthy, strTruthy, h2]
  have hcount : globalEpisodeCount globals b = g.episodes := by
    simp only [globalEpisodeCount]
    rw [if_pos hopt, h1]
    simp only [Option.getD_some]
    rw [h3]
  exact ⟨(genEntry_watched_eq globals syncComment aCol b g.episodes hopt hcount h4).2,
    fun rest => rfl⟩

/-- Witness: a completed entry with progress 999 against a known total of 12 produces
    an after-entry with progress 12. -/
theorem c6_completed_progress_clamped_witness :
    (ChangeInstruction.mk none { b999 with watched_episodes := 12 }).after.watched_episodes
      = 12 :=
  (c6_completed_progress_clamped [g12] false [] b999 "1" g12 (by decide) (by decide)
    (by decide) (by decide)).1
    (ChangeInstruction.mk none { b999 with watched_episodes := 12 }) (by decide)

/-- C10: a completed source entry whose cross-catalog id does not resolve in the target
    catalog index, or resolves to an entry whose episode count is the 0 sentinel, has
    its progress clamped to 0 before diffing, so every emitted after-entry carries
    progress 0. -/
theorem c10_unknown_total_clamps_to_zero (globals : List GlobalAnimeItem)
    (syncComment : Bool) (aCol : List AnimeCollection) (b : AnimeCollection)
    (m : String)
    (h1 : b.mal_id = some m) (h2 : m ≠ "")
    (h3 : ∀ g, getGlobalAnimeItemByMal globals m = some g → g.episodes = 0)
    (h4 : b.status = CollectionStatus.Completed) :
    (fixWatched globals b).watched_episodes = 0 ∧
    ∀ instr ∈ (genEntry globals syncComment aCol b).1,
      instr.after.watched_episodes = 0 := by
  have hopt : optTruthy b.mal_id = true := by
    rw [h1]; simp [optTruthy, strTruthy, h2]
  have hcount : globalEpisodeCount globals b = 0 := by
    simp only [globalEpisodeCount]
    rw [if_pos hopt, h1]
    simp only [Option.getD_some]
    cases hg : getGlobalAnimeItemByMal globals m with
    | none => rfl
    | some g2 => exact h3 g2 hg
  exact genEntry_watched_eq globals syncComment aCol b 0 hopt hcount (Or.inl h4)

/-- Witness: a completed entry whose MyAnimeList id is absent from the catalog index is
    clamped to progress 0. -/
theorem c10_unknown_total_clamps_to_zero_witness :
    (fixWatched [] b999).watched_episodes = 0 :=
  (c10_unknown_total_clamps_to_zero [] false [] b999 "1" (by decide) (by decide)
    (by intro g hg; simp [getGlobalAnimeItemByMal] at hg) (by decide)).1

/-- The find predicate of `generateChangelog` reads only a candidate's two
    cross-catalog ids. -/
theorem anilistPred_congr (c x y : AnimeCollection)
    (hmal : x.mal_id = y.mal_id) (hani : x.anilist_id = y.anilist_id) :
    anilistPred c x = anilistPred c y := by
  simp only [anilistPred, hmal, hani]

/-- Replacing the first `q`-match of a list by an entry that agrees with it on both
    cross-catalog ids and on the four compared fields preserves every
    find-plus-field-agreement fact about the list. -/
theorem find_replaceFirst (c : AnimeCollection) (q : AnimeCollection → Bool)
    (a a2 : AnimeCollection)
    (hmal : a2.mal_id = a.mal_id) (hani : a2.anilist_id = a.anilist_id)
    (hfields : eq4 a2 a) :
    ∀ l : List AnimeCollection, l.find? q = some a →
      (∃ x, l.find? (anilistPred c) = some x ∧ eq4 x c) →
      ∃ y, (replaceFirst q a2 l).find? (anilistPred c) = some y ∧ eq4 y c := by
  intro l
  induction l with
  | nil => intro h; simp at h
  | cons z zs ih =>
    intro hq hex
    by_cases hqz : q z
    · have hz : z = a := by
        rw [List.find?_cons_of_pos _ hqz] at hq
        exact (Option.some_injective _ hq)
      subst hz
      simp only [replaceFirst, if_pos hqz]
      by_cases hp : anilistPred c z
      · have hp2 : anilistPred c a2 = true := by
          rw [anilistPred_congr c a2 z hmal hani]; exact hp
        obtain ⟨x, hx, hx4⟩ := hex
        rw [List.find?_cons_of_pos _ hp] at hx
        have hxz : x = z := (Option.some_injective _ hx).symm
        subst hxz
        refine ⟨a2, ?_, ?_⟩
        · rw [List.find?_cons_of_pos _ hp2]
        · exact ⟨hfields.1.trans hx4.1, hfields.2.1.trans hx4.2.1,
            hfields.2.2.1.trans hx4.2.2.1, hfields.2.2.2.trans hx4.2.2.2⟩
      · have hp2 : anilistPred c a2 = false := by
          rw [anilistPred_congr c a2 z hmal hani]
          exact Bool.not_eq_true _ ▸ (by simpa using hp)
        obtain ⟨x, hx, hx4⟩ := hex
        rw [List.find?_cons_of_neg _ hp] at hx
        refine ⟨x, ?_, hx4⟩
        rw [List.find?_cons_of_neg _ (by simp [hp2])]
        exact hx
    · simp only [replaceFirst, if_neg hqz]
      rw [List.find?_cons_of_neg _ hqz] at hq
      by_cases hp : anilistPred c z
      · obtain ⟨x, hx, hx4⟩ := hex
        rw [List.find?_cons_of_pos _ hp] at hx
        refine ⟨x, ?_, hx4⟩
        rw [List.find?_cons_of_pos _ hp]
        exact hx
      · obtain ⟨x, hx, hx4⟩ := hex
        rw [List.find?_cons_of_neg _ hp] at hx
        obtain ⟨y, hy, hy4⟩ := ih hq ⟨x, hx, hx4⟩
        refine ⟨y, ?_, hy4⟩
        rw [List.find?_cons_of_neg _ hp]
        exact hy

/-- C7 counterexample: two collections with identical status, score, progress and
    comments, ids resolved and the counterpart present, on which `generateChangelog`
    still emits an instruction — the episode clamp rewrites the completed source entry's
    progress from 5 to the catalog total 12 before diffing, so the claim's no-op law
    fails as stated. -/
theorem c7_noop_law_counterexample :
    bX.status = aX.status ∧ bX.score = aX.score ∧
    bX.watched_episodes = aX.watched_episodes ∧ bX.comments = aX.comments ∧
    optTruthy bX.mal_id = true ∧ aX.mal_id = bX.mal_id ∧
    generateChangelog [g12] false [bX] [aX] ≠ [] := by
  decide

/-- C7 as amended: the no-op law holds once each source entry is a fixed point of the
    episode clamp (its progress already equals what `fixWatched` would write): if every
    source entry carries a resolved id, is clamp-stable, and its counterpart agrees on
    status, score, progress and comments, `generateChangelog` emits nothing. -/
theorem c7_noop_law_amended (globals : List GlobalAnimeItem) (syncComment : Bool) :
    ∀ bCol aCol : List AnimeCollection,
    (∀ b ∈ bCol, optTruthy b.mal_id = true ∨ optTruthy b.anilist_id = true) →
    (∀ b ∈ bCol, fixWatched globals b = b) →
    (∀ b ∈ bCol, ∃ a, aCol.find? (anilistPred b) = some a ∧ eq4 a b) →
    generateChangelog globals syncComment bCol aCol = [] := by
  intro bCol
  induction bCol with
  | nil => intro aCol _ _ _; rfl
  | cons b rest ih =>
    intro aCol h1 h2 h3
    obtain ⟨a, hfind, heq⟩ := h3 b (List.mem_cons_self b rest)
    have hguard : ¬ (¬ optTruthy b.mal_id = true ∧ ¬ optTruthy b.anilist_id = true) := by
      rcases h1 b (List.mem_cons_self b rest) with h | h <;> simp [h]
    have hfixb : fixWatched globals b = b := h2 b (List.mem_cons_self b rest)
    have hf1 := syncEntries_fst_fields b a
    have hf2 := syncEntries_snd_fields b a
    have hbase : ¬ ((syncEntries b a).1.score ≠ (syncEntries b a).2.score ∨
        (syncEntries b a).1.status ≠ (syncEntries b a).2.status ∨
        (syncEntries b a).1.watched_episodes ≠ (syncEntries b a).2.watched_episodes) := by
      push_neg
      refine ⟨?_, ?_, ?_⟩
      · rw [hf1.2.1, hf2.2.2.2.1, heq.2.1]
      · rw [hf1.1, hf2.2.2.1, heq.1]
      · rw [hf1.2.2.1, hf2.2.2.2.2.1, heq.2.2.1]
    have hextra : ¬ (syncComment = true ∧
        (syncEntries b a).2.comments ≠ (syncEntries b a).1.comments) := by
      rintro ⟨-, hne⟩
      exact hne (by rw [hf1.2.2.2, hf2.2.2.2.2.2, heq.2.2.2])
    have hgen : genEntry globals syncComment aCol b =
        ([], replaceFirst (anilistPred b) (syncEntries b a).2 aCol) := by
      simp only [genEntry, if_neg hguard, hfixb, hfind]
      rw [if_neg hbase, if_neg hextra]
      rfl
    have hstep : generateChangelog globals syncComment (b :: rest) aCol =
        generateChangelog globals syncComment rest
          (replaceFirst (anilistPred b) (syncEntries b a).2 aCol) := by
      show (genEntry globals syncComment aCol b).1 ++
          generateChangelog globals syncComment rest
            (genEntry globals syncComment aCol b).2 = _
      rw [hgen]
      rfl
    rw [hstep]
    refine ih _ (fun c hc => h1 c (List.mem_cons_of_mem b hc))
      (fun c hc => h2 c (List.mem_cons_of_mem b hc)) ?_
    intro c hc
    exact find_replaceFirst c (anilistPred b) a (syncEntries b a).2
      hf2.1 hf2.2.1
      ⟨hf2.2.2.1, hf2.2.2.2.1, hf2.2.2.2.2.1, hf2.2.2.2.2.2⟩
      aCol hfind (h3 c (List.mem_cons_of_mem b hc))

/-- Witness: collections that agree on all compared fields and whose progress is already
    clamped produce an empty changelog. -/
theorem c7_noop_law_amended_witness :
    generateChangelog [g12] false [bN] [aN] = [] :=
  c7_noop_law_amended [g12] false [bN] [aN] (by decide) (by decide)
    (by
      intro b hb
      rw [List.mem_singleton] at hb
      subst hb
      exact ⟨aN, by decide, by decide⟩)

/-- A string surviving the JS-truthiness collapse is nonempty and was present. -/
theorem optStr_eq_some {o : Option String} {m : String} (h : optStr o = some m) :
    m ≠ "" ∧ o = some m := by
  cases o with
  | none => simp [optStr] at h
  | some s =>
    by_cases hs : s = ""
    · simp [optStr, hs] at h
    · simp [optStr, hs] at h
      subst h
      exact ⟨hs, rfl⟩

/-- Searching an appended list starts over in the second part when the first has no
    match. -/
theorem find?_append_of_none {α : Type} (p : α → Bool) :
    ∀ l1 l2 : List α, l1.find? p = none → (l1 ++ l2).find? p = l2.find? p := by
  intro l1 l2
  induction l1 with
  | nil => intro _; simp
  | cons x xs ih =>
    intro h
    by_cases hx : p x
    · rw [List.find?_cons_of_pos _ hx] at h
      exact absurd h (by simp)
    · rw [List.find?_cons_of_neg _ hx] at h
      rw [List.cons_append, List.find?_cons_of_neg _ hx]
      exact ih h

/-- The candidate walk persists at most once, and either returns "unmatched" leaving the
    relation list untouched, or appends exactly one relation carrying the entry's ids
    and makes exactly one persist attempt (succeeding or throwing). -/
theorem tryCandidates_state (cmp : GlobalAnimeItem → Bool) (persist : List Relation → Bool)
    (bgm_id title : String) :
    ∀ (cands : List (GlobalAnimeItem × ℚ)) (rels : List Relation),
      (tryCandidates cmp persist bgm_id title rels cands).2.2 ≤ 1 ∧
      ((tryCandidates cmp persist bgm_id title rels cands).2.1 = rels ∧
        (tryCandidates cmp persist bgm_id title rels cands).2.2 = 0 ∧
        (tryCandidates cmp persist bgm_id title rels cands).1 = Except.ok none ∨
      ∃ mal, mal ≠ "" ∧
        (tryCandidates cmp persist bgm_id title rels cands).2.1 =
          rels ++ [Relation.mk title bgm_id mal] ∧
        (tryCandidates cmp persist bgm_id title rels cands).2.2 = 1 ∧
        (tryCandidates cmp persist bgm_id title rels cands).1 ≠ Except.ok none) := by
  intro cands
  induction cands with
  | nil =>
    intro rels
    exact ⟨by simp [tryCandidates], Or.inl ⟨rfl, rfl, rfl⟩⟩
  | cons p rest ih =>
    intro rels
    obtain ⟨gl, sc⟩ := p
    by_cases hc : cmp gl
    · cases ho : optStr gl.malSite with
      | none =>
        simp only [tryCandidates, if_pos hc, ho]
        exact ih rels
      | some mal =>
        have hmal : mal ≠ "" := (optStr_eq_some ho).1
        by_cases hp : persist (rels ++ [Relation.mk title bgm_id mal])
        · simp only [tryCandidates, if_pos hc, ho, if_pos hp]
          exact ⟨by simp, Or.inr ⟨mal, hmal, by simp, by simp, by simp⟩⟩
        · simp only [tryCandidates, if_pos hc, ho, if_neg hp]
          exact ⟨by simp, Or.inr ⟨mal, hmal, by simp, by simp, by simp⟩⟩
    · simp only [tryCandidates, if_neg hc]
      exact ih rels

/-- The cache-miss path persists at most once; it either leaves the relation list
    untouched with outcome "unmatched", or appends exactly one relation for the entry. -/
theorem matchFuzzy_state (globals : List GlobalAnimeItem) (sim : String → List String → ℚ)
    (totalEp : ChinaAnimeItem → Option Nat) (persist : List Relation → Bool)
    (rels : List Relation) (cn : ChinaAnimeItem) (th : ℚ) (bgm_id : String) :
    (matchFuzzy globals sim totalEp persist rels cn th bgm_id).persistAttempts ≤ 1 ∧
    ((matchFuzzy globals sim totalEp persist rels cn th bgm_id).relations = rels ∧
      (matchFuzzy globals sim totalEp persist rels cn th bgm_id).persistAttempts = 0 ∧
      (matchFuzzy globals sim totalEp persist rels cn th bgm_id).result = Except.ok none ∨
    ∃ mal, mal ≠ "" ∧
      (matchFuzzy globals sim totalEp persist rels cn th bgm_id).relations =
        rels ++ [Relation.mk cn.title bgm_id mal] ∧
      (matchFuzzy globals sim totalEp persist rels cn th bgm_id).persistAttempts = 1 ∧
      (matchFuzzy globals sim totalEp persist rels cn th bgm_id).result ≠ Except.ok none) := by
  unfold matchFuzzy
  exact tryCandidates_state _ persist bgm_id cn.title _ rels

/-- The fast path of `matchChinaToGlobal`: a truthy relation-cache hit resolves through
    the catalog index with zero fuzzy comparisons, zero persist attempts, and the
    relation list unchanged. -/
theorem matchChinaToGlobal_cache_hit (globals : List GlobalAnimeItem)
    (sim : String → List String → ℚ) (totalEp : ChinaAnimeItem → Option Nat)
    (persist : List Relation → Bool) (rels : List Relation) (cn : ChinaAnimeItem)
    (th : ℚ) (bid mal : String)
    (h1 : getBgmId cn = some bid)
    (h2 : optStr ((rels.find? (fun r => r.bgm_id == bid)).map Relation.mal_id) = some mal) :
    matchChinaToGlobal globals sim totalEp persist rels cn th =
      MatchOutcome.mk (Except.ok (getGlobalAnimeItemByMal globals mal)) rels 0 0 := by
  unfold matchChinaToGlobal
  split
  · rename_i heq
    rw [h1] at heq
    exact absurd heq (by simp)
  · rename_i bid2 heq
    rw [h1] at heq
    injection heq with hb
    subst hb
    split
    · rename_i mal2 heq2
      rw [h2] at heq2
      injection heq2 with hm
      subst hm
      rfl
    · rename_i heq2
      rw [h2] at heq2
      exact absurd heq2 (by simp)

/-- Every `matchChinaToGlobal` invocation persists at most once, and either leaves the
    relation list unchanged or appends exactly one relation keyed by the entry's
    bangumi id. -/
theorem matchChinaToGlobal_state (globals : List GlobalAnimeItem)
    (sim : String → List String → ℚ) (totalEp : ChinaAnimeItem → Option Nat)
    (persist : List Relation → Bool) (rels : List Relation) (cn : ChinaAnimeItem)
    (th : ℚ) :
    (matchChinaToGlobal globals sim totalEp persist rels cn th).persistAttempts ≤ 1 ∧
    ((matchChinaToGlobal globals sim totalEp persist rels cn th).relations = rels ∨
    ∃ bid mal, getBgmId cn = some bid ∧ mal ≠ "" ∧
      (matchChinaToGlobal globals sim totalEp persist rels cn th).relations =
        rels ++ [Relation.mk cn.title bid mal] ∧
      (matchChinaToGlobal globals sim totalEp persist rels cn th).persistAttempts = 1) ∧
    ((matchChinaToGlobal globals sim totalEp persist rels cn th).result =
        Except.error () →
      (matchChinaToGlobal globals sim totalEp persist rels cn th).persistAttempts = 1 ∧
      ∃ r, (matchChinaToGlobal globals sim totalEp persist rels cn th).relations =
        rels ++ [r]) := by
  unfold matchChinaToGlobal
  split
  · exact ⟨by simp, Or.inl rfl, by intro h; exact absurd h (by simp)⟩
  · rename_i bid heq
    split
    · exact ⟨by simp, Or.inl rfl, by intro h; exact absurd h (by simp)⟩
    · obtain ⟨hle, hd⟩ := matchFuzzy_state globals sim totalEp persist rels cn th bid
      rcases hd with ⟨hrel, hatt, hres⟩ | ⟨mal, hmal, hrel, hatt, hres⟩
      · refine ⟨hle, Or.inl hrel, ?_⟩
        intro h
        rw [hres] at h
        exact absurd h (by simp)
      · refine ⟨hle, Or.inr ⟨bid, mal, heq, hmal, hrel, hatt⟩, ?_⟩
        intro h
        exact ⟨hatt, ⟨Relation.mk cn.title bid mal, hrel⟩⟩

/-- C5: on a relation-cache hit `matchChinaToGlobal` returns the cached counterpart
    resolved through the catalog index with zero fuzzy comparisons and no cache append;
    consequently (the second conjunct) rerunning the matcher on an entry it resolved
    leaves the relation list unchanged — no duplicate `(source id, target id)` relation
    is appended.  The well-formedness hypothesis `hwf` states what every cache entry the
    code itself writes satisfies: a truthy MyAnimeList id. -/
theorem c5_cache_hit_no_fuzzy_no_append (globals : List GlobalAnimeItem)
    (sim : String → List String → ℚ) (totalEp : ChinaAnimeItem → Option Nat)
    (persist : List Relation → Bool) (rels : List Relation) (cn : ChinaAnimeItem)
    (th : ℚ) (bid : String)
    (h1 : getBgmId cn = some bid)
    (hwf : ∀ r ∈ rels, r.mal_id ≠ "") :
    (∀ r, rels.find? (fun x => x.bgm_id == bid) = some r →
      matchChinaToGlobal globals sim totalEp persist rels cn th =
        MatchOutcome.mk (Except.ok (getGlobalAnimeItemByMal globals r.mal_id)) rels 0 0) ∧
    (∀ gl, (matchChinaToGlobal globals sim totalEp persist rels cn th).result =
        Except.ok (some gl) →
      (matchChinaToGlobal globals sim totalEp persist
          (matchChinaToGlobal globals sim totalEp persist rels cn th).relations cn
          th).relations =
        (matchChinaToGlobal globals sim totalEp persist rels cn th).relations) := by
  constructor
  · intro r hr
    have hmal : r.mal_id ≠ "" := hwf r (List.mem_of_find?_eq_some hr)
    exact matchChinaToGlobal_cache_hit globals sim totalEp persist rels cn th bid
      r.mal_id h1 (by rw [hr]; simp [optStr, hmal])
  · intro gl _
    rcases (matchChinaToGlobal_state globals sim totalEp persist rels cn th).2.1 with
      hsame | ⟨bid2, mal, hbid2, hmal, hrel, hatt⟩
    · rw [hsame]
      exact hsame
    · have hb : bid = bid2 := Option.some_injective _ (h1.symm.trans hbid2)
      subst hb
      have hfindnone : rels.find? (fun x => x.bgm_id == bid) = none := by
        cases hf : rels.find? (fun x => x.bgm_id == bid) with
        | none => rfl
        | some r =>
          have hm2 : r.mal_id ≠ "" := hwf r (List.mem_of_find?_eq_some hf)
          have hhit := matchChinaToGlobal_cache_hit globals sim totalEp persist rels cn
            th bid r.mal_id h1 (by rw [hf]; simp [optStr, hm2])
          rw [hhit] at hrel
          simp at hrel
      have hfind2 : (rels ++ [Relation.mk cn.title bid mal]).find?
          (fun x => x.bgm_id == bid) = some (Relation.mk cn.title bid mal) := by
        rw [find?_append_of_none _ _ _ hfindnone]
        simp [List.find?]
      rw [hrel]
      rw [matchChinaToGlobal_cache_hit globals sim totalEp persist
        (rels ++ [Relation.mk cn.title bid mal]) cn th bid mal h1
        (by rw [hfind2]; simp [optStr, hmal])]

/-- Witness: a concrete cache hit — the matcher returns the indexed entry for the cached
    MyAnimeList id, with zero fuzzy calls and the cache untouched. -/
theorem c5_cache_hit_no_fuzzy_no_append_witness :
    matchChinaToGlobal [glA] (fun _ _ => 0) (fun _ => none) (fun _ => true)
        [Relation.mk "T" "b1" "m1"] cnJan 1 =
      MatchOutcome.mk (Except.ok (getGlobalAnimeItemByMal [glA] "m1"))
        [Relation.mk "T" "b1" "m1"] 0 0 :=
  (c5_cache_hit_no_fuzzy_no_append [glA] (fun _ _ => 0) (fun _ => none) (fun _ => true)
      [Relation.mk "T" "b1" "m1"] cnJan 1 "b1" (by decide) (by decide)).1
    (Relation.mk "T" "b1" "m1") (by decide)

/-- C8 counterexample: the claim says a failed persist is retried once and is non-fatal,
    the matched entry still being returned. On the code, `matchChinaToGlobal` calls
    `fs.writeFileSync` exactly once with no try/catch: with a persist that throws, the
    outcome is the escaped exception — not the matched entry — after a single attempt
    (and the relation remains appended to the in-memory list). -/
theorem c8_persist_retry_counterexample :
    (matchChinaToGlobal [glA] (fun _ _ => 1) (fun _ => none) (fun _ => false) [] cnJan
        1).result = Except.error () ∧
    (matchChinaToGlobal [glA] (fun _ _ => 1) (fun _ => none) (fun _ => false) [] cnJan
        1).persistAttempts = 1 ∧
    (matchChinaToGlobal [glA] (fun _ _ => 1) (fun _ => none) (fun _ => false) [] cnJan
        1).relations = [Relation.mk "A" "b1" "m1"] := by
  decide

/-- C8 as amended: persisting a newly resolved relation is attempted exactly once —
    never retried — and when the write throws, the exception escapes the matcher (the
    matched target entry is not returned), while the relation has already been appended
    to the in-memory relation list. -/
theorem c8_persist_no_retry_amended (globals : List GlobalAnimeItem)
    (sim : String → List String → ℚ) (totalEp : ChinaAnimeItem → Option Nat)
    (persist : List Relation → Bool) (rels : List Relation) (cn : ChinaAnimeItem)
    (th : ℚ) :
    (matchChinaToGlobal globals sim totalEp persist rels cn th).persistAttempts ≤ 1 ∧
    ((matchChinaToGlobal globals sim totalEp persist rels cn th).result =
        Except.error () →
      (matchChinaToGlobal globals sim totalEp persist rels cn th).persistAttempts = 1 ∧
      ∃ r, (matchChinaToGlobal globals sim totalEp persist rels cn th).relations =
        rels ++ [r]) :=
  ⟨(matchChinaToGlobal_state globals sim totalEp persist rels cn th).1,
    (matchChinaToGlobal_state globals sim totalEp persist rels cn th).2.2⟩

/-- Witness: the failing persist run makes exactly one attempt and leaves the appended
    relation in memory. -/
theorem c8_persist_no_retry_amended_witness :
    (matchChinaToGlobal [glA] (fun _ _ => 1) (fun _ => none) (fun _ => false) [] cnJan
        1).persistAttempts = 1 ∧
    (matchChinaToGlobal [glA] (fun _ _ => 1) (fun _ => none) (fun _ => false) [] cnJan
        1).relations = [Relation.mk "A" "b1" "m1"] :=
  ⟨((c8_persist_no_retry_amended [glA] (fun _ _ => 1) (fun _ => none) (fun _ => false)
      [] cnJan 1).2 (by decide)).1, by decide⟩

/-- C9 (spec-modelled): bidirectional mode generates the changelog symmetrically in both
    directions; an instruction whose title has no counterpart in the other direction is
    kept, and when both directions produced an instruction for the same title, exactly
    the one whose source entry has the strictly later last-update timestamp is kept,
    tagged with the platform that receives the write. -/
theorem c9_bidirectional_newer_wins (globals : List GlobalAnimeItem) (syncComment : Bool)
    (bCol aCol : List AnimeCollection) :
    (∀ f ∈ generateChangelog globals syncComment bCol aCol,
      (generateChangelog globals syncComment aCol bCol).find? (sameTitleKey f) = none →
      BiInstruction.mk f.before f.after SyncTarget.anilist ∈
        generateBidirectionalChangelog globals syncComment bCol aCol) ∧
    (∀ g ∈ generateChangelog globals syncComment aCol bCol,
      (generateChangelog globals syncComment bCol aCol).find? (sameTitleKey g) = none →
      BiInstruction.mk g.before g.after SyncTarget.bangumi ∈
        generateBidirectionalChangelog globals syncComment bCol aCol) ∧
    (∀ f ∈ generateChangelog globals syncComment bCol aCol, ∀ g,
      (generateChangelog globals syncComment aCol bCol).find? (sameTitleKey f) = some g →
      (g.after.update_time < f.after.update_time →
        keepForward (generateChangelog globals syncComment aCol bCol) f =
          some (BiInstruction.mk f.before f.after SyncTarget.anilist) ∧
        BiInstruction.mk f.before f.after SyncTarget.anilist ∈
          generateBidirectionalChangelog globals syncComment bCol aCol) ∧
      (f.after.update_time < g.after.update_time →
        keepForward (generateChangelog globals syncComment aCol bCol) f = none)) ∧
    (∀ g ∈ generateChangelog globals syncComment aCol bCol, ∀ f,
      (generateChangelog globals syncComment bCol aCol).find? (sameTitleKey g) = some f →
      (f.after.update_time < g.after.update_time →
        keepBackward (generateChangelog globals syncComment bCol aCol) g =
          some (BiInstruction.mk g.before g.after SyncTarget.bangumi) ∧
        BiInstruction.mk g.before g.after SyncTarget.bangumi ∈
          generateBidirectionalChangelog globals syncComment bCol aCol) ∧
      (g.after.update_time < f.after.update_time →
        keepBackward (generateChangelog globals syncComment bCol aCol) g = none)) := by
  refine ⟨?_, ?_, ?_, ?_⟩
  · intro f hf hnone
    exact List.mem_append_left _
      (List.mem_filterMap.mpr ⟨f, hf, by simp [keepForward, hnone]⟩)
  · intro g hg hnone
    exact List.mem_append_right _
      (List.mem_filterMap.mpr ⟨g, hg, by simp [keepBackward, hnone]⟩)
  · intro f hf g hfind
    constructor
    · intro hlt
      have hk : keepForward (generateChangelog globals syncComment aCol bCol) f =
          some (BiInstruction.mk f.before f.after SyncTarget.anilist) := by
        simp only [keepForward, hfind]
        rw [if_neg (by omega)]
      exact ⟨hk, List.mem_append_left _ (List.mem_filterMap.mpr ⟨f, hf, hk⟩)⟩
    · intro hlt
      simp only [keepForward, hfind]
      rw [if_pos hlt]
  · intro g hg f hfind
    constructor
    · intro hlt
      have hk : keepBackward (generateChangelog globals syncComment bCol aCol) g =
          some (BiInstruction.mk g.before g.after SyncTarget.bangumi) := by
        simp only [keepBackward, hfind]
        rw [if_pos hlt]
      exact ⟨hk, List.mem_append_right _ (List.mem_filterMap.mpr ⟨g, hg, hk⟩)⟩
    · intro hlt
      simp only [keepBackward, hfind]
      rw [if_neg (by omega)]

/-- Witness: the spec's bidirectional scenario — source updated at 5, counterpart at 10
    with a differing score — keeps only the backward instruction, tagged for the bangumi
    platform. -/
theorem c9_bidirectional_newer_wins_witness :
    keepBackward (generateChangelog [] false [bW] [aW]) gW =
      some (BiInstruction.mk gW.before gW.after SyncTarget.bangumi) ∧
    BiInstruction.mk gW.before gW.after SyncTarget.bangumi ∈
      generateBidirectionalChangelog [] false [bW] [aW] :=
  ((c9_bidirectional_newer_wins [] false [bW] [aW]).2.2.2 gW (by decide) fW
    (by decide)).1 (by decide)
